import Mathlib

/-!
# AudioApp: the lesson player (`src/AudioApp/src/screens/PlayerScreen.js`)

A shallow embedding of the state of the `PlayerScreen` React component and of
its handlers.

* Every `useState` cell is a field of `State`.
* A handler defined in the component body is a closure over the values of the
  render that created it.  A handler run from a button press belongs to the
  latest render, so the values it captured are the current ones.  A handler
  run from a `setTimeout` callback belongs to the render in which
  `playCurrentSentence` was called; the captured `currentSentenceIndex` and
  `loopSentence` are therefore stored in the pending timer.
* `setX(prev => ...)` updates act on the latest state; `setX(v)` stores `v`.
* Timers are kept in registration order with their due time (milliseconds);
  the earliest due timer fires first, the earlier registered one on a tie.
  `fire` runs the next pending timer; `wait` lets an amount of time pass and
  runs every timer due within it.
-/

namespace PlayerScreen

/-- One bilingual line of a lesson (`lessonsData.js`). -/
structure Sentence where
  en : String
  cn : String
  audio : String
deriving DecidableEq

/-- One lesson of a book (`lessonsData.js`); `route.params.lesson`. -/
structure Lesson where
  id : Nat
  title : String
  titleCn : String
  sentences : List Sentence
deriving DecidableEq

/-- The two functions handed to `setTimeout` in `playCurrentSentence`, with
the render values their closure captured. -/
inductive Callback where
  /-- the outer callback (2000 ms): `setIsPlaying(false); if (!loopSentence) ...` -/
  | completion (capturedIndex : Int) (capturedLoop : Bool)
  /-- the inner callback (500 ms): `playCurrentSentence()` of the same render -/
  | replay (capturedIndex : Int) (capturedLoop : Bool)
deriving DecidableEq

/-- A pending `setTimeout`. -/
structure Timer where
  due : Nat
  cb : Callback
deriving DecidableEq

/-- The `useState` cells of `PlayerScreen`, the clock and the pending timers.
`sentencePlayCounts` is the JS object, as a list of key/value entries. -/
structure State where
  isPlaying : Bool
  currentSentenceIndex : Int
  showTranslation : Bool
  loopSentence : Bool
  playbackSpeed : ℚ
  playCount : Nat
  sentencePlayCounts : List (Int × Nat)
  now : Nat
  timers : List Timer
deriving DecidableEq

/-- The state of a freshly mounted `PlayerScreen` (lines 17-23). -/
def initialState : State where
  isPlaying := false
  currentSentenceIndex := 0
  showTranslation := true
  loopSentence := false
  playbackSpeed := 1.0
  playCount := 0
  sentencePlayCounts := []
  now := 0
  timers := []

/-- The property read `prev[k]` of the counts object (`none` is `undefined`). -/
def lookupCount : List (Int × Nat) → Int → Option Nat
  | [], _ => none
  | (k, v) :: rest, key => if k = key then some v else lookupCount rest key

/-- The value of `prev[k] || 0`. -/
def countOf (m : List (Int × Nat)) (key : Int) : Nat :=
  (lookupCount m key).getD 0

/-- The object `{...prev, [key]: v}`. -/
def setCount : List (Int × Nat) → Int → Nat → List (Int × Nat)
  | [], key, v => [(key, v)]
  | (k, w) :: rest, key, v =>
    if k = key then (k, v) :: rest else (k, w) :: setCount rest key v

/-- Lines 47-75 of `playCurrentSentence`, called from a render whose
`currentSentenceIndex` and `loopSentence` were `capturedIndex` and
`capturedLoop`. -/
def playCurrentSentence (capturedIndex : Int) (capturedLoop : Bool) (s : State) : State :=
  { s with
    isPlaying := true
    playCount := s.playCount + 1
    sentencePlayCounts :=
      setCount s.sentencePlayCounts capturedIndex (countOf s.sentencePlayCounts capturedIndex + 1)
    timers := s.timers ++ [⟨s.now + 2000, Callback.completion capturedIndex capturedLoop⟩] }

/-- Lines 108-113 of `stopPlaying`; `soundRef.current` is never assigned, so the
`if` is not taken. -/
def stopPlaying (s : State) : State :=
  { s with isPlaying := false }

/-- Lines 115-119 of `nextSentence`, of a render whose `currentSentenceIndex`
was `capturedIndex`. -/
def nextSentence (lesson : Lesson) (capturedIndex : Int) (s : State) : State :=
  if capturedIndex < (lesson.sentences.length : Int) - 1 then
    { s with currentSentenceIndex := s.currentSentenceIndex + 1 }
  else s

/-- Lines 121-125 of `previousSentence`, of a render whose
`currentSentenceIndex` was `capturedIndex`. -/
def previousSentence (capturedIndex : Int) (s : State) : State :=
  if capturedIndex > 0 then
    { s with currentSentenceIndex := s.currentSentenceIndex - 1 }
  else s

/-- Lines 127-133 of `togglePlayPause`, pressed on the latest render. -/
def togglePlayPause (s : State) : State :=
  if s.isPlaying then stopPlaying s
  else playCurrentSentence s.currentSentenceIndex s.loopSentence s

/-- The array `speeds` of `changeSpeed`. -/
def speeds : List ℚ := [0.5, 0.75, 1.0, 1.25, 1.5, 2.0]

/-- The position of its first occurrence, counted from `k`, or `-1`
(`Array.prototype.indexOf`). -/
def indexOfFrom (x : ℚ) : List ℚ → Int → Int
  | [], _ => -1
  | y :: ys, k => if y = x then k else indexOfFrom x ys (k + 1)

/-- Lines 135-140 of `changeSpeed`.  `nextIndex` is always a position of
`speeds`, so the default of `getD` is never taken. -/
def changeSpeed (s : State) : State :=
  let currentIndex := indexOfFrom s.playbackSpeed speeds 0
  let nextIndex := (currentIndex + 1) % (speeds.length : Int)
  { s with playbackSpeed := speeds.getD nextIndex.toNat 0 }

/-- The `onPress` of a sentence card (line 162): `setCurrentSentenceIndex(index)`. -/
def seek (index : Int) (s : State) : State :=
  { s with currentSentenceIndex := index }

/-- The `onPress` of the loop button (line 200). -/
def toggleLoop (s : State) : State :=
  { s with loopSentence := !s.loopSentence }

/-- The `onPress` of the translation button (line 186). -/
def toggleTranslation (s : State) : State :=
  { s with showTranslation := !s.showTranslation }

/-- The body of a timer callback (lines 65-75). -/
def runCallback (lesson : Lesson) : Callback → State → State
  | Callback.completion capturedIndex capturedLoop, s =>
    let s1 := { s with isPlaying := false }
    if !capturedLoop then nextSentence lesson capturedIndex s1
    else { s1 with
           timers := s1.timers ++ [⟨s1.now + 500, Callback.replay capturedIndex capturedLoop⟩] }
  | Callback.replay capturedIndex capturedLoop, s =>
    playCurrentSentence capturedIndex capturedLoop s

/-- The least due time among `d` and the timers. -/
def earliestDue (d : Nat) : List Timer → Nat
  | [] => d
  | t :: ts => earliestDue (min d t.due) ts

/-- Take out the first timer whose due time is `d`. -/
def takeDue (d : Nat) : List Timer → Option (Timer × List Timer)
  | [] => none
  | t :: ts =>
    if t.due = d then some (t, ts)
    else match takeDue d ts with
      | none => none
      | some (u, rest) => some (u, t :: rest)

/-- The next timer to fire, and the timers left. -/
def nextTimer : List Timer → Option (Timer × List Timer)
  | [] => none
  | t :: ts => takeDue (earliestDue t.due ts) (t :: ts)

/-- The event loop runs the next pending timer: the clock moves to its due
time and its callback runs.  Without a pending timer nothing happens. -/
def fire (lesson : Lesson) (s : State) : State :=
  match nextTimer s.timers with
  | none => s
  | some (t, rest) => runCallback lesson t.cb { s with now := max s.now t.due, timers := rest }

/-- A bound on the callbacks that a timer due at `due` can set off up to the
time `target`: a callback registers at most one timer, due at least 500 ms
after the one that ran. -/
def firingsLeft (target due : Nat) : Nat :=
  if due ≤ target then (target - due) / 500 + 1 else 0

/-- The event loop up to the time `target`: as long as the next pending timer
is due by then it runs, as in `fire`; at most `fuel` timers run. -/
def runDue (lesson : Lesson) (target : Nat) : Nat → State → State
  | 0, s => s
  | fuel + 1, s =>
    match nextTimer s.timers with
    | none => s
    | some (t, rest) =>
      if t.due ≤ target then
        runDue lesson target fuel
          (runCallback lesson t.cb { s with now := max s.now t.due, timers := rest })
      else s

/-- The time `dt` passes without a press: every timer due within it runs, in
the order of the event loop, those registered on the way included, and the
clock ends `dt` later.  The fuel is enough for all of them
(`wait_leaves_no_due_timer`). -/
def wait (lesson : Lesson) (dt : Nat) (s : State) : State :=
  { runDue lesson (s.now + dt)
      ((s.timers.map fun t => firingsLeft (s.now + dt) t.due).sum) s with
    now := s.now + dt }

/-- What can happen to a mounted player. -/
inductive Event where
  | play
  | stop
  | pressPlayPause
  | next
  | previous
  | seek (index : Int)
  | toggleLoop
  | toggleTranslation
  | cycleSpeed
  | wait (dt : Nat)
  | fire
deriving DecidableEq

/-- One event.  The handlers of a button press are those of the latest render. -/
def step (lesson : Lesson) (s : State) : Event → State
  | Event.play => playCurrentSentence s.currentSentenceIndex s.loopSentence s
  | Event.stop => stopPlaying s
  | Event.pressPlayPause => togglePlayPause s
  | Event.next => nextSentence lesson s.currentSentenceIndex s
  | Event.previous => previousSentence s.currentSentenceIndex s
  | Event.seek index => seek index s
  | Event.toggleLoop => toggleLoop s
  | Event.toggleTranslation => toggleTranslation s
  | Event.cycleSpeed => changeSpeed s
  | Event.wait dt => wait lesson dt s
  | Event.fire => fire lesson s

/-- A sequence of events, from the left. -/
def run (lesson : Lesson) (s : State) : List Event → State
  | [] => s
  | e :: es => run lesson (step lesson s e) es

/-- An event the screen offers: there is a sentence card for each position of
`lesson.sentences` and for no other index. -/
def Event.offered (lesson : Lesson) : Event → Prop
  | Event.seek index => 0 ≤ index ∧ index < (lesson.sentences.length : Int)
  | _ => True

/-- The sentence cards of the screen (lines 155-163):
`lesson.sentences.map((sentence, index) => ...)` makes one card per sentence,
with `key={index}` and `onPress={() => setCurrentSentenceIndex(index)}`.  A
card is its key and its `onPress`. -/
def sentenceCards (lesson : Lesson) : List (Int × (State → State)) :=
  lesson.sentences.mapIdx fun index _sentence => ((index : Int), seek (index : Int))

/-- A seek to `index`: the `onPress` of the card with that key runs; `none`
when the screen has no such card, so that the request is refused and no state
is produced. -/
def tapCard (lesson : Lesson) (index : Int) (s : State) : Option State :=
  ((sentenceCards lesson).find? fun card => decide (card.1 = index)).map
    fun card => card.2 s

instance (lesson : Lesson) (e : Event) : Decidable (e.offered lesson) := by
  cases e <;> simp only [Event.offered] <;> infer_instance

/-- A lesson with `n` sentences. -/
def sampleLesson (n : Nat) : Lesson where
  id := 1
  title := "Lesson 1"
  titleCn := ""
  sentences := List.replicate n ⟨"Sample sentence", "", ""⟩

/-- Opening a lesson: `navigation.navigate('Player', { lesson: item, ... })`
(`HomeScreen.js`, line 28) mounts a `PlayerScreen` for `lesson`.  Its `useState`
cells take the initial values of lines 17-23: they depend neither on the
lesson nor on the state `prior` of a player that was open before, and there is
no test on `lesson.sentences`. -/
def openLesson (_lesson : Lesson) (_prior : State) : State :=
  initialState

/-- The quotient `(currentSentenceIndex + 1) / lesson.sentences.length` of the
progress bar (line 274); `none` when the divisor is 0, where the JS division
gives `Infinity` and not a ratio. -/
def progressRatio (lesson : Lesson) (s : State) : Option ℚ :=
  if lesson.sentences.length = 0 then none
  else some ((s.currentSentenceIndex + 1 : ℚ) / (lesson.sentences.length : ℚ))

/-- The bookkeeping of the two counters: `playCount` is the sum of the values
of `sentencePlayCounts`, every stored value is at least 1, and no key is stored
twice. -/
def CountsConsistent (s : State) : Prop :=
  s.playCount = (s.sentencePlayCounts.map Prod.snd).sum ∧
  (∀ entry ∈ s.sentencePlayCounts, 1 ≤ entry.2) ∧
  (s.sentencePlayCounts.map Prod.fst).Nodup

end PlayerScreen

/-! # The catalog (`src/AudioApp/src/data/lessonsData.js`) -/

namespace LessonsData

/-- The generated lessons
`Array.from({ length }, (_, i) => ({ id: i + first, title: ..., ... }))`
that end each book; the two sample sentences are the same in all four books. -/
def arrayFrom (length first : Nat) : List PlayerScreen.Lesson :=
  (List.range length).map fun i =>
    { id := i + first
      title := "Lesson " ++ toString (i + first)
      titleCn := "第" ++ toString (i + first) ++ "课"
      sentences := [
        ⟨"Sample sentence 1", "示例句子1", ""⟩,
        ⟨"Sample sentence 2", "示例句子2", ""⟩ ] }

/-- The array `lessonsData.book1`: 3 written-out lessons, then the
`Array.from` of length 141 with ids from 4. -/
def book1 : List PlayerScreen.Lesson :=
  [ { id := 1
      title := "Lesson 1 Excuse me!"
      titleCn := "第1课 对不起！"
      sentences := [
        ⟨"Excuse me!", "对不起！", ""⟩,
        ⟨"Yes?", "什么事？", ""⟩,
        ⟨"Is this your handbag?", "这是您的手提包吗？", ""⟩,
        ⟨"Pardon?", "对不起，请再说一遍。", ""⟩,
        ⟨"Is this your handbag?", "这是您的手提包吗？", ""⟩,
        ⟨"Yes, it is.", "是的，是我的。", ""⟩,
        ⟨"Thank you very much.", "非常感谢！", ""⟩ ] },
    { id := 2
      title := "Lesson 2 Is this your...?"
      titleCn := "第2课 这是你的...吗？"
      sentences := [
        ⟨"Is this your pen?", "这是你的钢笔吗？", ""⟩,
        ⟨"Yes, it is.", "是的，是我的。", ""⟩,
        ⟨"Is this your pencil?", "这是你的铅笔吗？", ""⟩,
        ⟨"Yes, it is.", "是的，是我的。", ""⟩,
        ⟨"Is this your book?", "这是你的书吗？", ""⟩,
        ⟨"Yes, it is.", "是的，是我的。", ""⟩ ] },
    { id := 3
      title := "Lesson 3 Sorry, sir."
      titleCn := "第3课 对不起，先生。"
      sentences := [
        ⟨"My coat and my umbrella please.", "请把我的大衣和伞拿给我。", ""⟩,
        ⟨"Here is my ticket.", "这是我（寄存东西）的牌子。", ""⟩,
        ⟨"Thank you, sir.", "谢谢，先生。", ""⟩,
        ⟨"Number five.", "是5号。", ""⟩,
        ⟨"Here\x27s your umbrella and your coat.", "这是您的伞和大衣。", ""⟩,
        ⟨"This is not my umbrella.", "这不是我的伞。", ""⟩,
        ⟨"Sorry sir.", "对不起，先生。", ""⟩,
        ⟨"Is this your umbrella?", "这把伞是您的吗？", ""⟩,
        ⟨"No, it is not.", "不，不是！", ""⟩,
        ⟨"Is this it?", "这把是吗？", ""⟩,
        ⟨"Yes, it is.", "是，是这把。", ""⟩,
        ⟨"Thank you very much.", "非常感谢。", ""⟩ ] } ]
  ++ arrayFrom 141 4

/-- The array `lessonsData.book2`: 1 written-out lesson, then the
`Array.from` of length 95 with ids from 2. -/
def book2 : List PlayerScreen.Lesson :=
  [ { id := 1
      title := "Lesson 1 A private conversation"
      titleCn := "第1课 私人谈话"
      sentences := [
        ⟨"Last week I went to the theatre.", "上星期我去看戏。", ""⟩,
        ⟨"I had a very good seat.", "我的座位很好。", ""⟩,
        ⟨"The play was very interesting.", "戏很有意思。", ""⟩,
        ⟨"I did not enjoy it.", "但我却无法欣赏。", ""⟩ ] } ]
  ++ arrayFrom 95 2

/-- The array `lessonsData.book3`: 1 written-out lesson, then the
`Array.from` of length 59 with ids from 2. -/
def book3 : List PlayerScreen.Lesson :=
  [ { id := 1
      title := "Lesson 1 A Puma at large"
      titleCn := "第1课 逃遁的美洲狮"
      sentences := [
        ⟨"Pumas are large, cat-like animals which are found in America.", "美洲狮是一种体形似猫的大动物，产于美洲。", ""⟩,
        ⟨"When reports came into London Zoo that a wild puma had been spotted forty-five miles south of London, they were not taken seriously.", "当伦敦动物园接到报告说，在伦敦以南45英里处发现一只美洲狮时，这些报告并没有受到重视。", ""⟩ ] } ]
  ++ arrayFrom 59 2

/-- The array `lessonsData.book4`: 1 written-out lesson, then the
`Array.from` of length 47 with ids from 2. -/
def book4 : List PlayerScreen.Lesson :=
  [ { id := 1
      title := "Lesson 1 Finding fossil man"
      titleCn := "第1课 发现化石人"
      sentences := [
        ⟨"We can read of things that happened 5,000 years ago in the Near East, where people first learned to write.", "我们从书籍中可读到5,000年前近东发生的事情，那里的人最早学会了写字。", ""⟩,
        ⟨"But there are some parts of the world where even now people cannot write.", "但直到现在，世界上有些地方，人们还不会书写。", ""⟩ ] } ]
  ++ arrayFrom 47 2

/-- The object `lessonsData`, as its entries in source order. -/
def lessonsData : List (String × List PlayerScreen.Lesson) :=
  [("book1", book1), ("book2", book2), ("book3", book3), ("book4", book4)]

/-- The property read `lessonsData[key]` (`HomeScreen.js`, line 23); `none` is
`undefined`. -/
def lessonsDataAt (key : String) : Option (List PlayerScreen.Lesson) :=
  (lessonsData.find? fun entry => entry.1 = key).map fun entry => entry.2

/-- An entry of `booksInfo`. -/
structure BookInfo where
  id : String
  title : String
  subtitle : String
  description : String
  lessons : Nat
deriving DecidableEq

/-- The array `booksInfo` (lines 125-154). -/
def booksInfo : List BookInfo :=
  [ { id := "book1", title := "新概念英语第一册", subtitle := "First Things First",
      description := "英语初阶", lessons := 144 },
    { id := "book2", title := "新概念英语第二册", subtitle := "Practice and Progress",
      description := "实践与进步", lessons := 96 },
    { id := "book3", title := "新概念英语第三册", subtitle := "Developing Skills",
      description := "培养技能", lessons := 60 },
    { id := "book4", title := "新概念英语第四册", subtitle := "Fluency in English",
      description := "流利英语", lessons := 48 } ]

end LessonsData

/-! # The mock account (`src/AudioApp/src/screens/ProfileScreen.js`) -/

namespace ProfileScreen

/-- The object kept in the `userInfo` cell. -/
structure UserInfo where
  name : String
  email : String
  phone : String
  studyDays : Nat
  totalLessons : Nat
deriving DecidableEq

/-- The `useState` cells of `ProfileScreen` (lines 15-24). -/
structure State where
  isLoggedIn : Bool
  username : String
  password : String
  userInfo : UserInfo
deriving DecidableEq

/-- The state of a freshly mounted `ProfileScreen`. -/
def initialState : State where
  isLoggedIn := false
  username := ""
  password := ""
  userInfo := { name := "", email := "", phone := "", studyDays := 0, totalLessons := 0 }

/-- The `onChangeText` of the user name field (line 79). -/
def setUsername (text : String) (s : State) : State :=
  { s with username := text }

/-- The `onChangeText` of the password field (line 90). -/
def setPassword (text : String) (s : State) : State :=
  { s with password := text }

/-- Lines 26-44 of `handleLogin`.  A string is falsy exactly when it is empty.
The alerts change no state. -/
def handleLogin (s : State) : State :=
  if s.username = "" ∨ s.password = "" then s
  else if s.username ≠ "" ∧ s.password ≠ "" then
    { s with
      userInfo :=
        { name := s.username
          email := s.username ++ "@example.com"
          phone := "138****8888"
          studyDays := 15
          totalLessons := 45 }
      isLoggedIn := true }
  else s

/-- Lines 46-65 of `handleLogout`: the alert has two buttons; `confirmed` tells
whether the second one was pressed, whose `onPress` clears the cells, the first
one has no `onPress`. -/
def handleLogout (confirmed : Bool) (s : State) : State :=
  if confirmed then
    { isLoggedIn := false
      username := ""
      password := ""
      userInfo := { name := "", email := "", phone := "", studyDays := 0, totalLessons := 0 } }
  else s

end ProfileScreen

namespace PlayerScreen

/-! ## Helper lemmas -/

theorem countOf_setCount_same (m : List (Int × Nat)) (key : Int) (v : Nat) :
    countOf (setCount m key v) key = v := by
  induction m with
  | nil => simp [setCount, countOf, lookupCount]
  | cons p rest ih =>
    obtain ⟨k, w⟩ := p
    by_cases hk : k = key
    · simp [setCount, countOf, lookupCount, hk]
    · simpa [setCount, countOf, lookupCount, hk] using ih

theorem countOf_setCount_other (m : List (Int × Nat)) (key other : Int) (v : Nat)
    (h : other ≠ key) : countOf (setCount m key v) other = countOf m other := by
  induction m with
  | nil => simp [setCount, countOf, lookupCount, Ne.symm h]
  | cons p rest ih =>
    obtain ⟨k, w⟩ := p
    by_cases hk : k = key
    · subst hk
      simp [setCount, countOf, lookupCount, Ne.symm h]
    · by_cases ho : k = other
      · subst ho
        simp [setCount, countOf, lookupCount, hk]
      · simpa [setCount, countOf, lookupCount, hk, ho] using ih

theorem changeSpeed_eq (s : State) :
    changeSpeed s = { s with playbackSpeed :=
      if s.playbackSpeed = 0.5 then 0.75
      else if s.playbackSpeed = 0.75 then 1.0
      else if s.playbackSpeed = 1.0 then 1.25
      else if s.playbackSpeed = 1.25 then 1.5
      else if s.playbackSpeed = 1.5 then 2.0
      else 0.5 } := by
  unfold changeSpeed speeds
  simp only [indexOfFrom, eq_comm (b := s.playbackSpeed)]
  split_ifs <;> simp_all

theorem changeSpeed_mem (s : State) : (changeSpeed s).playbackSpeed ∈ speeds := by
  rw [changeSpeed_eq]
  simp only [speeds]
  split_ifs <;> simp

theorem runCallback_speed (lesson : Lesson) (cb : Callback) (s : State) :
    (runCallback lesson cb s).playbackSpeed = s.playbackSpeed := by
  cases cb with
  | completion i l =>
    simp only [runCallback, nextSentence]
    split_ifs <;> rfl
  | replay i l => rfl

theorem runDue_speed (lesson : Lesson) (target fuel : Nat) (s : State) :
    (runDue lesson target fuel s).playbackSpeed = s.playbackSpeed := by
  induction fuel generalizing s with
  | zero => rfl
  | succ n ih =>
    simp only [runDue]
    split
    · rfl
    · split
      · rw [ih, runCallback_speed]
      · rfl

theorem step_speed_mem (lesson : Lesson) (s : State) (e : Event)
    (h : s.playbackSpeed ∈ speeds) : (step lesson s e).playbackSpeed ∈ speeds := by
  cases e with
  | cycleSpeed => exact changeSpeed_mem s
  | play => exact h
  | stop => exact h
  | pressPlayPause =>
    simp only [step, togglePlayPause]
    split <;> exact h
  | next =>
    simp only [step, nextSentence]
    split <;> exact h
  | previous =>
    simp only [step, previousSentence]
    split <;> exact h
  | seek index => exact h
  | toggleLoop => exact h
  | toggleTranslation => exact h
  | wait dt =>
    show (runDue lesson _ _ s).playbackSpeed ∈ speeds
    rw [runDue_speed]
    exact h
  | fire =>
    simp only [step, fire]
    split
    · exact h
    · rename_i t rest _
      cases hcb : t.cb with
      | completion i l =>
        simp only [runCallback, nextSentence]
        split_ifs <;> exact h
      | replay i l => exact h

/-! ## Speed cycling -/

/-- C8: from each of the six speeds, six applications of `changeSpeed` give
back the state it started from, and fewer (but at least one) give another
speed. -/
theorem changeSpeed_cycle_length_six (s : State) (h : s.playbackSpeed ∈ speeds) :
    changeSpeed^[6] s = s ∧
      ∀ k : Nat, 0 < k → k < 6 → (changeSpeed^[k] s).playbackSpeed ≠ s.playbackSpeed := by
  obtain ⟨p, i, t, l, q, c, m, n, ts⟩ := s
  simp only [speeds, List.mem_cons, List.mem_singleton, List.not_mem_nil, or_false] at h
  refine ⟨?_, ?_⟩
  · rcases h with h | h | h | h | h | h <;> subst h <;>
      simp only [Function.iterate_succ, Function.iterate_zero, Function.comp_apply, id_eq,
        changeSpeed_eq] <;> norm_num
  · intro k hk0 hk6
    interval_cases k <;> rcases h with h | h | h | h | h | h <;> subst h <;>
      simp only [Function.iterate_succ, Function.iterate_zero, Function.comp_apply, id_eq,
        changeSpeed_eq] <;> norm_num

/-- The witness of C8: the initial speed 1.0. -/
theorem changeSpeed_cycle_length_six_witness :
    initialState.playbackSpeed ∈ speeds ∧
    (changeSpeed^[6] initialState = initialState ∧
      ∀ k : Nat, 0 < k → k < 6 →
        (changeSpeed^[k] initialState).playbackSpeed ≠ initialState.playbackSpeed) :=
  ⟨by simp [initialState, speeds],
   changeSpeed_cycle_length_six initialState (by simp [initialState, speeds])⟩

/-- C9: `changeSpeed` sends 0.5 to 0.75, 0.75 to 1.0, 1.0 to 1.25, 1.25 to
1.5, 1.5 to 2.0 and 2.0 back to 0.5, and after any sequence of events from the
initial state the speed is one of the six. -/
theorem changeSpeed_successor_and_speed_in_set :
    (∀ s : State,
      (changeSpeed { s with playbackSpeed := 0.5 }).playbackSpeed = 0.75 ∧
      (changeSpeed { s with playbackSpeed := 0.75 }).playbackSpeed = 1.0 ∧
      (changeSpeed { s with playbackSpeed := 1.0 }).playbackSpeed = 1.25 ∧
      (changeSpeed { s with playbackSpeed := 1.25 }).playbackSpeed = 1.5 ∧
      (changeSpeed { s with playbackSpeed := 1.5 }).playbackSpeed = 2.0 ∧
      (changeSpeed { s with playbackSpeed := 2.0 }).playbackSpeed = 0.5) ∧
    initialState.playbackSpeed = 1.0 ∧
    ∀ (lesson : Lesson) (es : List Event),
      (run lesson initialState es).playbackSpeed ∈ speeds := by
  refine ⟨?_, rfl, ?_⟩
  · intro s
    simp only [changeSpeed_eq]
    norm_num
  · intro lesson es
    have key : ∀ (es : List Event) (s : State), s.playbackSpeed ∈ speeds →
        (run lesson s es).playbackSpeed ∈ speeds := by
      intro es
      induction es with
      | nil => intro s hs; exact hs
      | cons e rest ih => intro s hs; exact ih _ (step_speed_mem lesson s e hs)
    exact key es initialState (by simp [initialState, speeds])

/-! ## Navigation -/

/-- C7: in a state whose index is a position of the lesson (so the lesson has
at least one sentence), `next` at the last position and `previous` at position
0 change nothing; elsewhere `next` adds one to the index and `previous`
subtracts one, and all the rest of the state (playing flag, counts, ...) stays
as it was. -/
theorem next_previous_spec (lesson : Lesson) (s : State)
    (hlo : 0 ≤ s.currentSentenceIndex)
    (hhi : s.currentSentenceIndex < (lesson.sentences.length : Int)) :
    (s.currentSentenceIndex = (lesson.sentences.length : Int) - 1 →
      step lesson s Event.next = s) ∧
    (s.currentSentenceIndex = 0 → step lesson s Event.previous = s) ∧
    (s.currentSentenceIndex ≠ (lesson.sentences.length : Int) - 1 →
      step lesson s Event.next =
        { s with currentSentenceIndex := s.currentSentenceIndex + 1 }) ∧
    (s.currentSentenceIndex ≠ 0 →
      step lesson s Event.previous =
        { s with currentSentenceIndex := s.currentSentenceIndex - 1 }) := by
  refine ⟨?_, ?_, ?_, ?_⟩
  · intro h
    simp only [step, nextSentence]
    rw [if_neg (by omega)]
  · intro h
    simp only [step, previousSentence]
    rw [if_neg (by omega)]
  · intro h
    simp only [step, nextSentence]
    rw [if_pos (by omega)]
  · intro h
    simp only [step, previousSentence]
    rw [if_pos (by omega)]

/-- The witness of C7: a lesson of three sentences, at position 1. -/
theorem next_previous_spec_witness :
    (step (sampleLesson 3) (seek 1 initialState) Event.next).currentSentenceIndex = 2 ∧
    (step (sampleLesson 3) (seek 1 initialState) Event.previous).currentSentenceIndex = 0 :=
  have h := next_previous_spec (sampleLesson 3) (seek 1 initialState)
    (by decide) (by decide)
  ⟨by rw [h.2.2.1 (by decide)]; rfl, by rw [h.2.2.2 (by decide)]; rfl⟩

/-! ## Starting playback -/

/-- C10: in a state that is not playing, `play` (the play/pause button, or
`playCurrentSentence` itself) sets `isPlaying`, adds one to `playCount` and to
the count of the current index (a missing entry counting as 0), keeps the count
of every other index, and keeps the index, the loop flag and the speed. -/
theorem play_from_idle (lesson : Lesson) (s : State) (e : Event)
    (he : e = Event.play ∨ e = Event.pressPlayPause) (hidle : s.isPlaying = false) :
    (step lesson s e).isPlaying = true ∧
    (step lesson s e).playCount = s.playCount + 1 ∧
    countOf (step lesson s e).sentencePlayCounts s.currentSentenceIndex =
      countOf s.sentencePlayCounts s.currentSentenceIndex + 1 ∧
    (∀ j : Int, j ≠ s.currentSentenceIndex →
      countOf (step lesson s e).sentencePlayCounts j = countOf s.sentencePlayCounts j) ∧
    (step lesson s e).currentSentenceIndex = s.currentSentenceIndex ∧
    (step lesson s e).loopSentence = s.loopSentence ∧
    (step lesson s e).playbackSpeed = s.playbackSpeed := by
  have hstep : step lesson s e =
      playCurrentSentence s.currentSentenceIndex s.loopSentence s := by
    rcases he with he | he <;> subst he
    · rfl
    · simp [step, togglePlayPause, hidle]
  rw [hstep]
  refine ⟨rfl, rfl, ?_, ?_, rfl, rfl, rfl⟩
  · exact countOf_setCount_same _ _ _
  · intro j hj
    exact countOf_setCount_other _ _ _ _ hj

/-- The witness of C10: the play/pause button on the initial state. -/
theorem play_from_idle_witness :
    initialState.isPlaying = false ∧
    (step (sampleLesson 3) initialState Event.pressPlayPause).playCount = 1 ∧
    countOf (step (sampleLesson 3) initialState Event.pressPlayPause).sentencePlayCounts 0
      = 1 :=
  have h := play_from_idle (sampleLesson 3) initialState Event.pressPlayPause
    (Or.inr rfl) rfl
  ⟨rfl, h.2.1, h.2.2.1⟩

/-! ## Timer callbacks -/

theorem fire_single (lesson : Lesson) (s : State) (t : Timer) (h : s.timers = [t]) :
    fire lesson s = runCallback lesson t.cb { s with now := max s.now t.due, timers := [] } := by
  simp [fire, h, nextTimer, takeDue, earliestDue]

theorem runCallback_completion_noloop (lesson : Lesson) (i : Int) (s : State) :
    runCallback lesson (Callback.completion i false) s
      = nextSentence lesson i { s with isPlaying := false } := by
  simp [runCallback]

theorem runCallback_completion_loop (lesson : Lesson) (i : Int) (s : State) :
    runCallback lesson (Callback.completion i true) s
      = { s with isPlaying := false
                 timers := s.timers ++ [⟨s.now + 500, Callback.replay i true⟩] } := by
  simp [runCallback]

theorem nextSentence_frame (lesson : Lesson) (i : Int) (s : State) :
    (nextSentence lesson i s).isPlaying = s.isPlaying ∧
    (nextSentence lesson i s).playCount = s.playCount ∧
    (nextSentence lesson i s).sentencePlayCounts = s.sentencePlayCounts ∧
    (nextSentence lesson i s).timers = s.timers ∧
    (nextSentence lesson i s).currentSentenceIndex
      = (if i < (lesson.sentences.length : Int) - 1
          then s.currentSentenceIndex + 1 else s.currentSentenceIndex) := by
  unfold nextSentence
  split <;> exact ⟨rfl, rfl, rfl, rfl, rfl⟩

/-! ## The event loop -/

theorem earliestDue_le (ts : List Timer) (d : Nat) :
    earliestDue d ts ≤ d ∧ ∀ u ∈ ts, earliestDue d ts ≤ u.due := by
  induction ts generalizing d with
  | nil => exact ⟨Nat.le_refl _, fun u hu => absurd hu (List.not_mem_nil u)⟩
  | cons t rest ih =>
    obtain ⟨h1, h2⟩ := ih (min d t.due)
    refine ⟨?_, ?_⟩
    · exact Nat.le_trans h1 (Nat.min_le_left _ _)
    · intro u hu
      rcases List.mem_cons.mp hu with h | h
      · rw [h]
        exact Nat.le_trans h1 (Nat.min_le_right _ _)
      · exact h2 u h

theorem earliestDue_attained (ts : List Timer) (d : Nat) :
    earliestDue d ts = d ∨ ∃ u ∈ ts, u.due = earliestDue d ts := by
  induction ts generalizing d with
  | nil => exact Or.inl rfl
  | cons t rest ih =>
    rcases ih (min d t.due) with h | ⟨u, hu, hdue⟩
    · rcases Nat.le_total d t.due with hle | hle
      · left
        show earliestDue (min d t.due) rest = d
        rw [h, Nat.min_eq_left hle]
      · right
        refine ⟨t, List.mem_cons_self _ _, ?_⟩
        show t.due = earliestDue (min d t.due) rest
        rw [h, Nat.min_eq_right hle]
    · exact Or.inr ⟨u, List.mem_cons_of_mem _ hu, hdue⟩

theorem takeDue_some (d : Nat) (ts : List Timer) (t : Timer) (rest : List Timer)
    (h : takeDue d ts = some (t, rest)) : t.due = d ∧ List.Perm ts (t :: rest) := by
  induction ts generalizing rest with
  | nil => simp [takeDue] at h
  | cons u us ih =>
    by_cases hu : u.due = d
    · simp only [takeDue, hu, if_true, Option.some.injEq, Prod.mk.injEq] at h
      obtain ⟨h1, h2⟩ := h
      subst h1 h2
      exact ⟨hu, List.Perm.refl _⟩
    · simp only [takeDue, hu, if_false] at h
      cases hrec : takeDue d us with
      | none => simp [hrec] at h
      | some pr =>
        obtain ⟨v, r⟩ := pr
        simp only [hrec, Option.some.injEq, Prod.mk.injEq] at h
        obtain ⟨h1, h2⟩ := h
        subst h1 h2
        obtain ⟨hv, hperm⟩ := ih r hrec
        exact ⟨hv, (List.Perm.cons u hperm).trans (List.Perm.swap v u r)⟩

theorem takeDue_none (d : Nat) (ts : List Timer) (h : takeDue d ts = none) :
    ∀ u ∈ ts, u.due ≠ d := by
  induction ts with
  | nil => intro u hu; exact absurd hu (List.not_mem_nil u)
  | cons t rest ih =>
    by_cases ht : t.due = d
    · simp [takeDue, ht] at h
    · simp only [takeDue, ht, if_false] at h
      cases hrec : takeDue d rest with
      | none =>
        intro u hu
        rcases List.mem_cons.mp hu with h1 | h1
        · rw [h1]; exact ht
        · exact ih hrec u h1
      | some pr => simp [hrec] at h

theorem nextTimer_none (ts : List Timer) (h : nextTimer ts = none) : ts = [] := by
  cases ts with
  | nil => rfl
  | cons t rest =>
    exfalso
    have hno := takeDue_none _ _ h
    rcases earliestDue_attained rest t.due with heq | ⟨u, hu, hdue⟩
    · exact hno t (List.mem_cons_self _ _) heq.symm
    · exact hno u (List.mem_cons_of_mem _ hu) hdue

theorem nextTimer_some (ts : List Timer) (t : Timer) (rest : List Timer)
    (h : nextTimer ts = some (t, rest)) :
    List.Perm ts (t :: rest) ∧ ∀ u ∈ ts, t.due ≤ u.due := by
  cases ts with
  | nil => simp [nextTimer] at h
  | cons v vs =>
    obtain ⟨hdue, hperm⟩ := takeDue_some _ _ _ _ h
    refine ⟨hperm, ?_⟩
    intro u hu
    rw [hdue]
    rcases List.mem_cons.mp hu with h1 | h1
    · rw [h1]
      exact (earliestDue_le vs v.due).1
    · exact (earliestDue_le vs v.due).2 u h1

theorem firingsLeft_antitone (target a b : Nat) (h : a ≤ b) :
    firingsLeft target b ≤ firingsLeft target a := by
  unfold firingsLeft
  split_ifs <;> omega

theorem firingsLeft_after (target due now : Nat) (h : due ≤ target) :
    firingsLeft target (max now due + 500) + 1 ≤ firingsLeft target due := by
  have h1 := firingsLeft_antitone target (due + 500) (max now due + 500) (by omega)
  have h2 : firingsLeft target (due + 500) + 1 ≤ firingsLeft target due := by
    unfold firingsLeft
    split_ifs <;> omega
  omega

theorem firingsLeft_le_sum (target : Nat) (ts : List Timer) (t : Timer) (h : t ∈ ts) :
    firingsLeft target t.due ≤ (ts.map fun u => firingsLeft target u.due).sum := by
  induction ts with
  | nil => exact absurd h (List.not_mem_nil t)
  | cons v vs ih =>
    simp only [List.map_cons, List.sum_cons]
    rcases List.mem_cons.mp h with h1 | h1
    · rw [h1]
      omega
    · have := ih h1
      omega

theorem runCallback_firingsLeft (lesson : Lesson) (target : Nat) (cb : Callback) (s : State) :
    ((runCallback lesson cb s).timers.map fun u => firingsLeft target u.due).sum
      ≤ (s.timers.map fun u => firingsLeft target u.due).sum
        + firingsLeft target (s.now + 500) := by
  cases cb with
  | completion i l =>
    cases l
    · rw [runCallback_completion_noloop, (nextSentence_frame lesson i _).2.2.2.1]
      exact Nat.le_add_right _ _
    · rw [runCallback_completion_loop]
      simp
  | replay i l =>
    have h := firingsLeft_antitone target (s.now + 500) (s.now + 2000) (by omega)
    simp only [runCallback, playCurrentSentence, List.map_append, List.sum_append,
      List.map_cons, List.map_nil, List.sum_cons, List.sum_nil]
    omega

theorem runDue_leaves_no_due_timer (lesson : Lesson) (target fuel : Nat) (s : State)
    (h : (s.timers.map fun u => firingsLeft target u.due).sum ≤ fuel) :
    ∀ t ∈ (runDue lesson target fuel s).timers, target < t.due := by
  induction fuel generalizing s with
  | zero =>
    intro t ht
    have h1 := firingsLeft_le_sum target s.timers t ht
    have h2 : firingsLeft target t.due = 0 := by omega
    unfold firingsLeft at h2
    split_ifs at h2
    omega
  | succ n ih =>
    simp only [runDue]
    cases hnext : nextTimer s.timers with
    | none =>
      intro t ht
      rw [nextTimer_none _ hnext] at ht
      exact absurd ht (List.not_mem_nil t)
    | some pr =>
      obtain ⟨u, rest⟩ := pr
      obtain ⟨hperm, hmin⟩ := nextTimer_some _ _ _ hnext
      by_cases hdue : u.due ≤ target
      · simp only [hdue, if_true]
        apply ih
        have hsum : (s.timers.map fun v => firingsLeft target v.due).sum
            = firingsLeft target u.due + (rest.map fun v => firingsLeft target v.due).sum := by
          rw [(hperm.map _).sum_eq]
          simp
        have hcb := runCallback_firingsLeft lesson target u.cb
          { s with now := max s.now u.due, timers := rest }
        have hafter := firingsLeft_after target u.due s.now hdue
        simp only at hcb
        omega
      · simp only [hdue, if_false]
        intro t ht
        have := hmin t ht
        omega

/-- The fuel of `wait` is enough: after `wait` no pending timer is due within
the time that has passed, and the clock is `dt` later. -/
theorem wait_leaves_no_due_timer (lesson : Lesson) (dt : Nat) (s : State) :
    (wait lesson dt s).now = s.now + dt ∧
    ∀ t ∈ (wait lesson dt s).timers, s.now + dt < t.due :=
  ⟨rfl, runDue_leaves_no_due_timer lesson (s.now + dt) _ s (Nat.le_refl _)⟩

/-! ## Completion of a playback -/

/-- C4: without loop and without another pending timer, `play` followed by
the firing of its completion leaves the player not playing, at the next index
when the index was below the last position and at the same index when it was
the last position. -/
theorem play_then_completion_no_loop (lesson : Lesson) (s : State)
    (hloop : s.loopSentence = false) (hq : s.timers = []) :
    (fire lesson (step lesson s Event.play)).isPlaying = false ∧
    (s.currentSentenceIndex < (lesson.sentences.length : Int) - 1 →
      (fire lesson (step lesson s Event.play)).currentSentenceIndex
        = s.currentSentenceIndex + 1) ∧
    (s.currentSentenceIndex = (lesson.sentences.length : Int) - 1 →
      (fire lesson (step lesson s Event.play)).currentSentenceIndex
        = s.currentSentenceIndex) := by
  have hf : fire lesson (step lesson s Event.play) =
      nextSentence lesson s.currentSentenceIndex
        { playCurrentSentence s.currentSentenceIndex false s with
          isPlaying := false, now := max s.now (s.now + 2000), timers := [] } := by
    rw [fire_single lesson _ ⟨s.now + 2000, Callback.completion s.currentSentenceIndex false⟩
      (by simp [step, playCurrentSentence, hq, hloop])]
    simp [step, runCallback, playCurrentSentence, hloop]
  rw [hf]
  refine ⟨?_, ?_, ?_⟩
  · simp only [nextSentence]
    split <;> rfl
  · intro h
    simp only [nextSentence]
    rw [if_pos h]
    rfl
  · intro h
    simp only [nextSentence]
    rw [if_neg (by omega)]
    rfl

/-- The witness of C4: three sentences, three rounds of play and completion:
the index goes 0, 1, 2, 2. -/
theorem play_then_completion_no_loop_witness :
    (fire (sampleLesson 3) (step (sampleLesson 3) initialState Event.play)).isPlaying
      = false ∧
    (run (sampleLesson 3) initialState [Event.play, Event.fire]).currentSentenceIndex = 1 ∧
    (run (sampleLesson 3) initialState
      [Event.play, Event.fire, Event.play, Event.fire]).currentSentenceIndex = 2 ∧
    (run (sampleLesson 3) initialState
      [Event.play, Event.fire, Event.play, Event.fire, Event.play, Event.fire]
      ).currentSentenceIndex = 2 ∧
    (run (sampleLesson 3) initialState
      [Event.play, Event.fire, Event.play, Event.fire, Event.play, Event.fire]
      ).isPlaying = false :=
  ⟨(play_then_completion_no_loop (sampleLesson 3) initialState rfl rfl).1,
    by decide, by decide, by decide, by decide⟩

/-- C5: with loop on and no other pending timer, after `play` and each of
its completions (the first, and the `k` that follow a replay) the index is
still the one played, the player is not playing, the only pending timer is a
replay of the same index 500 ms later, and `playCount` and the count of that
index have grown by the number of completions; the replay that fires next
plays again and adds one more to both. -/
theorem loop_play_completion (lesson : Lesson) (s : State)
    (hloop : s.loopSentence = true) (hq : s.timers = []) (k : Nat) :
    let sk := (fun t => fire lesson (fire lesson t))^[k] (fire lesson (step lesson s Event.play))
    sk.currentSentenceIndex = s.currentSentenceIndex ∧
    sk.isPlaying = false ∧
    sk.timers = [⟨sk.now + 500, Callback.replay s.currentSentenceIndex true⟩] ∧
    sk.playCount = s.playCount + (k + 1) ∧
    countOf sk.sentencePlayCounts s.currentSentenceIndex
      = countOf s.sentencePlayCounts s.currentSentenceIndex + (k + 1) ∧
    (fire lesson sk).isPlaying = true ∧
    (fire lesson sk).currentSentenceIndex = s.currentSentenceIndex ∧
    (fire lesson sk).playCount = sk.playCount + 1 ∧
    countOf (fire lesson sk).sentencePlayCounts s.currentSentenceIndex
      = countOf sk.sentencePlayCounts s.currentSentenceIndex + 1 := by
  intro sk
  have main : sk.currentSentenceIndex = s.currentSentenceIndex ∧
      sk.isPlaying = false ∧
      sk.timers = [⟨sk.now + 500, Callback.replay s.currentSentenceIndex true⟩] ∧
      sk.playCount = s.playCount + (k + 1) ∧
      countOf sk.sentencePlayCounts s.currentSentenceIndex
        = countOf s.sentencePlayCounts s.currentSentenceIndex + (k + 1) := by
    induction k with
    | zero =>
      have hf : sk = { playCurrentSentence s.currentSentenceIndex true s with
          isPlaying := false, now := max s.now (s.now + 2000),
          timers := [⟨max s.now (s.now + 2000) + 500,
            Callback.replay s.currentSentenceIndex true⟩] } := by
        show fire lesson (step lesson s Event.play) = _
        rw [fire_single lesson _ ⟨s.now + 2000, Callback.completion s.currentSentenceIndex true⟩
          (by simp [step, playCurrentSentence, hq, hloop])]
        simp [step, runCallback, playCurrentSentence, hloop]
      rw [hf]
      refine ⟨rfl, rfl, rfl, rfl, ?_⟩
      exact countOf_setCount_same _ _ _
    | succ n ih =>
      obtain ⟨h1, _, h3, h4, h5⟩ := ih
      have hsk : sk = fire lesson (fire lesson
          ((fun t => fire lesson (fire lesson t))^[n]
            (fire lesson (step lesson s Event.play)))) :=
        Function.iterate_succ_apply' _ _ _
      generalize (fun t => fire lesson (fire lesson t))^[n]
        (fire lesson (step lesson s Event.play)) = p at h1 h3 h4 h5 hsk
      have hp : fire lesson p = playCurrentSentence s.currentSentenceIndex true
          { p with now := max p.now (p.now + 500), timers := [] } := by
        rw [fire_single lesson p _ h3]
        rfl
      have hf : sk = { playCurrentSentence s.currentSentenceIndex true
            { p with now := max p.now (p.now + 500), timers := [] } with
          isPlaying := false
          now := max (max p.now (p.now + 500)) (max p.now (p.now + 500) + 2000)
          timers := [⟨max (max p.now (p.now + 500)) (max p.now (p.now + 500) + 2000) + 500,
            Callback.replay s.currentSentenceIndex true⟩] } := by
        rw [hsk, hp]
        rw [fire_single lesson _
          ⟨max p.now (p.now + 500) + 2000, Callback.completion s.currentSentenceIndex true⟩
          (by simp [playCurrentSentence])]
        simp [runCallback, playCurrentSentence]
      rw [hf]
      refine ⟨h1, rfl, rfl, ?_, ?_⟩
      · show p.playCount + 1 = _
        omega
      · show countOf (setCount p.sentencePlayCounts _
          (countOf p.sentencePlayCounts s.currentSentenceIndex + 1)) _ = _
        rw [countOf_setCount_same]
        omega
  obtain ⟨h1, h2, h3, h4, h5⟩ := main
  have hp : fire lesson sk = playCurrentSentence s.currentSentenceIndex true
      { sk with now := max sk.now (sk.now + 500), timers := [] } := by
    rw [fire_single lesson sk _ h3]
    rfl
  refine ⟨h1, h2, h3, h4, h5, ?_, ?_, ?_, ?_⟩
  · rw [hp]; rfl
  · rw [hp]; exact h1
  · rw [hp]; rfl
  · rw [hp]; exact countOf_setCount_same _ _ _

/-- The witness of C5: from the initial state with loop on, the count of
sentence 0 is 2 after the second completion. -/
theorem loop_play_completion_witness :
    (toggleLoop initialState).loopSentence = true ∧
    (toggleLoop initialState).timers = [] ∧
    countOf (run (sampleLesson 3) initialState
      [Event.toggleLoop, Event.play, Event.fire, Event.fire, Event.fire]).sentencePlayCounts 0
      = 2 ∧
    (run (sampleLesson 3) initialState
      [Event.toggleLoop, Event.play, Event.fire, Event.fire, Event.fire]).currentSentenceIndex
      = 0 :=
  have h := loop_play_completion (sampleLesson 3) (toggleLoop initialState) rfl rfl 1
  ⟨rfl, rfl, h.2.2.2.2.1, h.1⟩

/-! ## Stopping, and playing while playing -/

/-- C2 at its failing inputs (three sentences, the play/pause button pressed
to play and pressed again to stop within the 2000 ms).  After the stop the
player is not playing, at index 0, with `playCount` 1 and the completion of the
stopped playback still pending.  Its firing, or 2000 ms of time, moves the
index to 1.  With loop on, the completion and the replay that it registers fire
within 2500 ms: the player plays again by itself, `playCount` is 2. -/
theorem stop_does_not_cancel_completion :
    (run (sampleLesson 3) initialState
      [Event.pressPlayPause, Event.pressPlayPause]).isPlaying = false ∧
    (run (sampleLesson 3) initialState
      [Event.pressPlayPause, Event.pressPlayPause]).currentSentenceIndex = 0 ∧
    (run (sampleLesson 3) initialState
      [Event.pressPlayPause, Event.pressPlayPause]).timers
        = [⟨2000, Callback.completion 0 false⟩] ∧
    (run (sampleLesson 3) initialState
      [Event.pressPlayPause, Event.pressPlayPause, Event.fire]).currentSentenceIndex = 1 ∧
    (run (sampleLesson 3) initialState
      [Event.pressPlayPause, Event.pressPlayPause, Event.wait 2000]).currentSentenceIndex
        = 1 ∧
    (run (sampleLesson 3) initialState
      [Event.toggleLoop, Event.pressPlayPause, Event.pressPlayPause]).isPlaying = false ∧
    (run (sampleLesson 3) initialState
      [Event.toggleLoop, Event.pressPlayPause, Event.pressPlayPause]).playCount = 1 ∧
    (run (sampleLesson 3) initialState
      [Event.toggleLoop, Event.pressPlayPause, Event.pressPlayPause,
        Event.fire, Event.fire]).isPlaying = true ∧
    (run (sampleLesson 3) initialState
      [Event.toggleLoop, Event.pressPlayPause, Event.pressPlayPause,
        Event.fire, Event.fire]).playCount = 2 ∧
    (run (sampleLesson 3) initialState
      [Event.toggleLoop, Event.pressPlayPause, Event.pressPlayPause,
        Event.wait 2500]).isPlaying = true ∧
    (run (sampleLesson 3) initialState
      [Event.toggleLoop, Event.pressPlayPause, Event.pressPlayPause,
        Event.wait 2500]).playCount = 2 ∧
    (run (sampleLesson 3) initialState
      [Event.play, Event.stop, Event.wait 2000]).currentSentenceIndex = 1 := by
  decide

/-- C3, as the code has it: in a playing state the play/pause button stops
(only `isPlaying` changes), and `playCurrentSentence` itself plays again (one
more on `playCount` and on the count of the index, one more completion
pending); from a state that is not playing, two presses of the button add
exactly one to `playCount` and to the count of the index, and two calls of
`playCurrentSentence` add two. -/
theorem play_while_playing (lesson : Lesson) (p s : State)
    (hplaying : p.isPlaying = true) (hidle : s.isPlaying = false) :
    step lesson p Event.pressPlayPause = { p with isPlaying := false } ∧
    (step lesson p Event.play).isPlaying = true ∧
    (step lesson p Event.play).playCount = p.playCount + 1 ∧
    countOf (step lesson p Event.play).sentencePlayCounts p.currentSentenceIndex
      = countOf p.sentencePlayCounts p.currentSentenceIndex + 1 ∧
    (step lesson p Event.play).timers = p.timers ++
      [⟨p.now + 2000, Callback.completion p.currentSentenceIndex p.loopSentence⟩] ∧
    (run lesson s [Event.pressPlayPause, Event.pressPlayPause]).playCount
      = s.playCount + 1 ∧
    countOf (run lesson s [Event.pressPlayPause, Event.pressPlayPause]).sentencePlayCounts
      s.currentSentenceIndex = countOf s.sentencePlayCounts s.currentSentenceIndex + 1 ∧
    (run lesson s [Event.pressPlayPause, Event.pressPlayPause]).isPlaying = false ∧
    (run lesson s [Event.play, Event.play]).playCount = s.playCount + 2 ∧
    countOf (run lesson s [Event.play, Event.play]).sentencePlayCounts
      s.currentSentenceIndex = countOf s.sentencePlayCounts s.currentSentenceIndex + 2 := by
  have h1 : step lesson s Event.pressPlayPause =
      playCurrentSentence s.currentSentenceIndex s.loopSentence s := by
    simp [step, togglePlayPause, hidle]
  have h2 : run lesson s [Event.pressPlayPause, Event.pressPlayPause] =
      { playCurrentSentence s.currentSentenceIndex s.loopSentence s with isPlaying := false } := by
    simp only [run, h1]
    simp [step, togglePlayPause, stopPlaying, playCurrentSentence]
  refine ⟨?_, rfl, rfl, countOf_setCount_same _ _ _, rfl, ?_, ?_, ?_, rfl, ?_⟩
  · simp [step, togglePlayPause, stopPlaying, hplaying]
  · rw [h2]; rfl
  · rw [h2]; exact countOf_setCount_same _ _ _
  · rw [h2]
  · show countOf (setCount (setCount s.sentencePlayCounts s.currentSentenceIndex _)
      s.currentSentenceIndex
      (countOf (setCount s.sentencePlayCounts s.currentSentenceIndex _)
        s.currentSentenceIndex + 1)) s.currentSentenceIndex = _
    rw [countOf_setCount_same, countOf_setCount_same]

/-- The counterexample of C3 (three sentences): in the playing state reached
by `play` from the initial state, neither `playCurrentSentence` nor the
play/pause button leaves the state as it is, and `play` twice from the initial
state gives `playCount` 2 and count 2 for sentence 0. -/
theorem second_play_changes_state :
    (step (sampleLesson 3) initialState Event.play).isPlaying = true ∧
    step (sampleLesson 3) (step (sampleLesson 3) initialState Event.play) Event.play
      ≠ step (sampleLesson 3) initialState Event.play ∧
    step (sampleLesson 3) (step (sampleLesson 3) initialState Event.play) Event.pressPlayPause
      ≠ step (sampleLesson 3) initialState Event.play ∧
    (run (sampleLesson 3) initialState [Event.play, Event.play]).playCount = 2 ∧
    countOf (run (sampleLesson 3) initialState [Event.play, Event.play]).sentencePlayCounts 0
      = 2 := by
  refine ⟨rfl, ?_, ?_, by decide, by decide⟩
  · intro h
    have hc := congrArg State.playCount h
    revert hc
    decide
  · intro h
    have hc := congrArg State.isPlaying h
    revert hc
    decide

/-- The witness of C3 as the code has it: the initial state, and the state
after `play` from it. -/
theorem play_while_playing_witness :
    (step (sampleLesson 3) initialState Event.play).isPlaying = true ∧
    initialState.isPlaying = false ∧
    (run (sampleLesson 3) initialState
      [Event.pressPlayPause, Event.pressPlayPause]).playCount = 1 ∧
    (run (sampleLesson 3) initialState [Event.play, Event.play]).playCount = 2 :=
  have h := play_while_playing (sampleLesson 3)
    (step (sampleLesson 3) initialState Event.play) initialState rfl rfl
  ⟨rfl, rfl, h.2.2.2.2.2.1, h.2.2.2.2.2.2.2.2.1⟩

/-! ## Values captured by a pending completion -/

/-- C1 at its failing input (three sentences): the play/pause button at
sentence 0, a tap on the card of sentence 2, then the completion fires: its
bound check reads the captured index 0, its increment acts on the index 2, and
the index becomes 3, which is no position of the lesson.  Every event is one
the screen offers. -/
theorem stale_index_leaves_range :
    (∀ e ∈ [Event.pressPlayPause, Event.seek 2, Event.fire], e.offered (sampleLesson 3)) ∧
    (run (sampleLesson 3) initialState
      [Event.pressPlayPause, Event.seek 2]).currentSentenceIndex = 2 ∧
    (run (sampleLesson 3) initialState
      [Event.pressPlayPause, Event.seek 2, Event.fire]).currentSentenceIndex = 3 ∧
    ¬ ((run (sampleLesson 3) initialState
      [Event.pressPlayPause, Event.seek 2, Event.fire]).currentSentenceIndex
        < ((sampleLesson 3).sentences.length : Int)) := by
  decide

/-- C6 at its failing inputs (three sentences).  Loop on at `play` and
turned off before the completion fires: the loop flag is off at that moment,
yet a replay is scheduled, the index stays 0 and the replay plays sentence 0
again.  Loop off at `play` and turned on before the completion fires: the flag
is on at that moment, yet no replay is scheduled and the index moves to 1. -/
theorem stale_loop_flag_decides_completion :
    (run (sampleLesson 3) initialState
      [Event.toggleLoop, Event.pressPlayPause, Event.toggleLoop]).loopSentence = false ∧
    (run (sampleLesson 3) initialState
      [Event.toggleLoop, Event.pressPlayPause, Event.toggleLoop, Event.fire]).timers
        = [⟨2500, Callback.replay 0 true⟩] ∧
    (run (sampleLesson 3) initialState
      [Event.toggleLoop, Event.pressPlayPause, Event.toggleLoop, Event.fire]
      ).currentSentenceIndex = 0 ∧
    (run (sampleLesson 3) initialState
      [Event.toggleLoop, Event.pressPlayPause, Event.toggleLoop, Event.fire, Event.fire]
      ).isPlaying = true ∧
    (run (sampleLesson 3) initialState
      [Event.toggleLoop, Event.pressPlayPause, Event.toggleLoop, Event.fire, Event.fire]
      ).playCount = 2 ∧
    (run (sampleLesson 3) initialState
      [Event.pressPlayPause, Event.toggleLoop]).loopSentence = true ∧
    (run (sampleLesson 3) initialState
      [Event.pressPlayPause, Event.toggleLoop, Event.fire]).timers = [] ∧
    (run (sampleLesson 3) initialState
      [Event.pressPlayPause, Event.toggleLoop, Event.fire]).isPlaying = false ∧
    (run (sampleLesson 3) initialState
      [Event.pressPlayPause, Event.toggleLoop, Event.fire]).currentSentenceIndex = 1 := by
  decide

/-! ## The two play counters -/

theorem sum_setCount_succ (m : List (Int × Nat)) (key : Int) :
    ((setCount m key (countOf m key + 1)).map Prod.snd).sum = (m.map Prod.snd).sum + 1 := by
  induction m with
  | nil => simp [setCount, countOf, lookupCount]
  | cons p rest ih =>
    obtain ⟨k, w⟩ := p
    by_cases hk : k = key
    · simp [setCount, countOf, lookupCount, hk]
      omega
    · have hc : countOf ((k, w) :: rest) key = countOf rest key := by
        simp [countOf, lookupCount, hk]
      rw [hc]
      simp only [setCount, hk, if_false, List.map_cons, List.sum_cons, ih]
      omega

theorem mem_setCount (m : List (Int × Nat)) (key : Int) (v : Nat) (entry : Int × Nat)
    (h : entry ∈ setCount m key v) : entry ∈ m ∨ entry = (key, v) := by
  induction m with
  | nil =>
    right
    simpa [setCount] using h
  | cons p rest ih =>
    obtain ⟨k, w⟩ := p
    by_cases hk : k = key
    · simp only [setCount, hk, if_true, List.mem_cons] at h
      rcases h with h | h
      · right; exact h
      · left; exact List.mem_cons_of_mem _ h
    · simp only [setCount, hk, if_false, List.mem_cons] at h
      rcases h with h | h
      · left; rw [h]; exact List.mem_cons_self _ _
      · rcases ih h with h1 | h1
        · left; exact List.mem_cons_of_mem _ h1
        · right; exact h1

theorem keys_setCount (m : List (Int × Nat)) (key : Int) (v : Nat) (k : Int)
    (h : k ∈ (setCount m key v).map Prod.fst) : k ∈ m.map Prod.fst ∨ k = key := by
  obtain ⟨entry, he, rfl⟩ := List.mem_map.mp h
  rcases mem_setCount m key v entry he with h1 | h1
  · left; exact List.mem_map_of_mem _ h1
  · right; rw [h1]

theorem nodup_keys_setCount (m : List (Int × Nat)) (key : Int) (v : Nat)
    (h : (m.map Prod.fst).Nodup) : ((setCount m key v).map Prod.fst).Nodup := by
  induction m with
  | nil => simp [setCount]
  | cons p rest ih =>
    obtain ⟨k, w⟩ := p
    simp only [List.map_cons, List.nodup_cons] at h
    by_cases hk : k = key
    · simp only [setCount, hk, if_true, List.map_cons, List.nodup_cons]
      rw [← hk]
      exact h
    · simp only [setCount, hk, if_false, List.map_cons, List.nodup_cons]
      refine ⟨?_, ih h.2⟩
      intro hmem
      rcases keys_setCount rest key v k hmem with h1 | h1
      · exact h.1 h1
      · exact hk h1

theorem playCurrentSentence_consistent (i : Int) (l : Bool) (s : State)
    (h : CountsConsistent s) : CountsConsistent (playCurrentSentence i l s) := by
  obtain ⟨h1, h2, h3⟩ := h
  refine ⟨?_, ?_, ?_⟩
  · show s.playCount + 1 = _
    rw [h1]
    exact (sum_setCount_succ _ _).symm
  · intro entry he
    rcases mem_setCount _ _ _ _ he with h4 | h4
    · exact h2 entry h4
    · rw [h4]
      exact Nat.le_add_left 1 _
  · exact nodup_keys_setCount _ _ _ h3

theorem nextSentence_consistent (lesson : Lesson) (i : Int) (s : State)
    (h : CountsConsistent s) : CountsConsistent (nextSentence lesson i s) := by
  unfold nextSentence
  split
  · exact h
  · exact h

theorem runCallback_consistent (lesson : Lesson) (cb : Callback) (s : State)
    (h : CountsConsistent s) : CountsConsistent (runCallback lesson cb s) := by
  cases cb with
  | completion i l =>
    cases l
    · rw [runCallback_completion_noloop]
      exact nextSentence_consistent lesson i _ h
    · rw [runCallback_completion_loop]
      exact h
  | replay i l => exact playCurrentSentence_consistent i l s h

theorem runDue_consistent (lesson : Lesson) (target fuel : Nat) (s : State)
    (h : CountsConsistent s) : CountsConsistent (runDue lesson target fuel s) := by
  induction fuel generalizing s with
  | zero => exact h
  | succ n ih =>
    simp only [runDue]
    split
    · exact h
    · split
      · exact ih _ (runCallback_consistent lesson _ _ h)
      · exact h

theorem step_consistent (lesson : Lesson) (s : State) (e : Event)
    (h : CountsConsistent s) : CountsConsistent (step lesson s e) := by
  cases e with
  | play => exact playCurrentSentence_consistent _ _ s h
  | stop => exact h
  | pressPlayPause =>
    simp only [step, togglePlayPause]
    split
    · exact h
    · exact playCurrentSentence_consistent _ _ s h
  | next => exact nextSentence_consistent lesson _ s h
  | previous =>
    simp only [step, previousSentence]
    split
    · exact h
    · exact h
  | seek index => exact h
  | toggleLoop => exact h
  | toggleTranslation => exact h
  | cycleSpeed => exact h
  | wait dt => exact runDue_consistent lesson _ _ s h
  | fire =>
    simp only [step, fire]
    split
    · exact h
    · exact runCallback_consistent lesson _ _ h

/-- C16: after any sequence of events from the initial state, `playCount` is
the sum of the values stored in `sentencePlayCounts`, every stored value is at
least 1, and no index is stored twice. -/
theorem playCount_eq_sum_of_sentence_counts (lesson : Lesson) (es : List Event) :
    (run lesson initialState es).playCount
      = ((run lesson initialState es).sentencePlayCounts.map Prod.snd).sum ∧
    (∀ entry ∈ (run lesson initialState es).sentencePlayCounts, 1 ≤ entry.2) ∧
    ((run lesson initialState es).sentencePlayCounts.map Prod.fst).Nodup := by
  have key : ∀ (es : List Event) (s : State), CountsConsistent s →
      CountsConsistent (run lesson s es) := by
    intro es
    induction es with
    | nil => intro s hs; exact hs
    | cons e rest ih => intro s hs; exact ih _ (step_consistent lesson s e hs)
  exact key es initialState ⟨rfl, by simp [initialState], by simp [initialState]⟩

/-! ## Selecting a sentence -/

theorem find_card (l : List Sentence) (k : Nat) (index : Int) (s : State) :
    ((l.mapIdx fun i _sentence => (((i + k : Nat) : Int), seek ((i + k : Nat) : Int))).find?
        fun card => decide (card.1 = index)).map (fun card => card.2 s)
      = if (k : Int) ≤ index ∧ index < (k : Int) + (l.length : Int)
          then some (seek index s) else none := by
  induction l generalizing k with
  | nil =>
    have hno : ¬ ((k : Int) ≤ index ∧ index < (k : Int) + ((0 : Nat) : Int)) := by omega
    simp only [List.mapIdx_nil, List.find?_nil, Option.map_none', List.length_nil, if_neg hno]
  | cons a rest ih =>
    have hshift : (fun (i : Nat) (_sentence : Sentence) =>
          ((((i + 1 + k : Nat) : Int)), seek ((i + 1 + k : Nat) : Int)))
        = fun (i : Nat) (_sentence : Sentence) =>
          ((((i + (k + 1) : Nat) : Int)), seek ((i + (k + 1) : Nat) : Int)) := by
      funext i _
      rw [Nat.add_right_comm, Nat.add_assoc]
    rw [List.mapIdx_cons, hshift, List.find?_cons]
    by_cases hk : ((0 + k : Nat) : Int) = index
    · have hyes : (k : Int) ≤ index ∧ index < (k : Int) + ((rest.length + 1 : Nat) : Int) := by
        omega
      simp only [hk, decide_True, Option.map_some', List.length_cons, if_pos hyes]
    · simp only [hk, decide_False]
      rw [ih (k + 1)]
      by_cases hin : (k : Int) ≤ index ∧ index < (k : Int) + ((rest.length + 1 : Nat) : Int)
      · have hin2 : ((k + 1 : Nat) : Int) ≤ index ∧
            index < ((k + 1 : Nat) : Int) + (rest.length : Int) := by omega
        simp only [List.length_cons, if_pos hin, if_pos hin2]
      · have hin2 : ¬ (((k + 1 : Nat) : Int) ≤ index ∧
            index < ((k + 1 : Nat) : Int) + (rest.length : Int)) := by omega
        simp only [List.length_cons, if_neg hin, if_neg hin2]

theorem tapCard_eq (lesson : Lesson) (index : Int) (s : State) :
    tapCard lesson index s
      = if 0 ≤ index ∧ index < (lesson.sentences.length : Int)
          then some (seek index s) else none := by
  have h := find_card lesson.sentences 0 index s
  simp only [Nat.add_zero, Nat.cast_zero, zero_add] at h
  exact h

/-- C11: a seek to an index below 0 or not below the number of sentences
finds no card of the screen: it is refused and produces no state, so the index
is neither clamped nor set to the bad index; a seek to a position of the lesson
runs the card of that position, which sets the index to it and changes nothing
else (`isPlaying` is kept).  The seeks that are refused are exactly those that
`Event.offered` leaves out, and an offered seek is the tap on its card. -/
theorem seek_only_by_card (lesson : Lesson) (s : State) (index : Int) :
    (index < 0 ∨ (lesson.sentences.length : Int) ≤ index → tapCard lesson index s = none) ∧
    (0 ≤ index ∧ index < (lesson.sentences.length : Int) →
      tapCard lesson index s = some { s with currentSentenceIndex := index }) ∧
    (∀ s1 : State, tapCard lesson index s = some s1 →
      s1.currentSentenceIndex = index ∧ s1.isPlaying = s.isPlaying ∧
      0 ≤ s1.currentSentenceIndex ∧
      s1.currentSentenceIndex < (lesson.sentences.length : Int)) ∧
    ((Event.seek index).offered lesson ↔ tapCard lesson index s ≠ none) ∧
    ((Event.seek index).offered lesson →
      tapCard lesson index s = some (step lesson s (Event.seek index))) := by
  rw [tapCard_eq]
  refine ⟨?_, ?_, ?_, ?_, ?_⟩
  · intro h
    rw [if_neg (by omega)]
  · intro h
    rw [if_pos h]
    rfl
  · intro s1 h1
    by_cases hin : 0 ≤ index ∧ index < (lesson.sentences.length : Int)
    · rw [if_pos hin] at h1
      have hs : seek index s = s1 := Option.some.inj h1
      rw [← hs]
      exact ⟨rfl, rfl, hin.1, hin.2⟩
    · rw [if_neg hin] at h1
      exact absurd h1 (by simp)
  · constructor
    · intro h
      have hin : 0 ≤ index ∧ index < (lesson.sentences.length : Int) := h
      rw [if_pos hin]
      simp
    · intro h
      by_cases hin : 0 ≤ index ∧ index < (lesson.sentences.length : Int)
      · exact hin
      · rw [if_neg hin] at h
        exact absurd rfl h
  · intro h
    have hin : 0 ≤ index ∧ index < (lesson.sentences.length : Int) := h
    rw [if_pos hin]
    rfl

/-- The witness of C11: on a lesson of three sentences a seek to 5 is refused
and the index stays as it was, a seek to 2 sets the index to 2. -/
theorem seek_only_by_card_witness :
    ((5 : Int) < 0 ∨ (((sampleLesson 3).sentences.length : Nat) : Int) ≤ 5) ∧
    tapCard (sampleLesson 3) 5 initialState = none ∧
    initialState.currentSentenceIndex = 0 ∧
    tapCard (sampleLesson 3) 2 initialState
      = some { initialState with currentSentenceIndex := 2 } :=
  ⟨by decide,
   (seek_only_by_card (sampleLesson 3) initialState 5).1 (by decide),
   rfl,
   (seek_only_by_card (sampleLesson 3) initialState 2).2.1 (by decide)⟩

/-! ## Opening a lesson -/

/-- C12: whatever the lesson and whatever the state before, after
`openLesson` the index is 0, the player is not playing, `playCount` is 0 and no
count is stored. -/
theorem openLesson_resets (lesson : Lesson) (prior : State) :
    (openLesson lesson prior).currentSentenceIndex = 0 ∧
    (openLesson lesson prior).isPlaying = false ∧
    (openLesson lesson prior).playCount = 0 ∧
    (openLesson lesson prior).sentencePlayCounts = [] :=
  ⟨rfl, rfl, rfl, rfl⟩

/-- C13, as the code has it: opening has no test on the sentences and cannot
fail: for a lesson without sentences, as for any other, the player is mounted in
its initial state, and the state before plays no part. -/
theorem openLesson_empty_is_mounted (lesson : Lesson) (prior : State)
    (hempty : lesson.sentences = []) :
    openLesson lesson prior = initialState ∧
    (∀ other : Lesson, openLesson lesson prior = openLesson other prior) ∧
    progressRatio lesson (openLesson lesson prior) = none := by
  refine ⟨rfl, fun _ => rfl, ?_⟩
  simp [progressRatio, hempty]

/-- The counterexample of C13: a lesson without sentences is opened over a
player that has played once (`playCount` 1, playing): the result is the mounted
initial state, with `playCount` 0 and not playing, not the state before. -/
theorem openLesson_empty_replaces_state :
    (sampleLesson 0).sentences = [] ∧
    (step (sampleLesson 3) initialState Event.pressPlayPause).playCount = 1 ∧
    (step (sampleLesson 3) initialState Event.pressPlayPause).isPlaying = true ∧
    (openLesson (sampleLesson 0)
      (step (sampleLesson 3) initialState Event.pressPlayPause)).playCount = 0 ∧
    (openLesson (sampleLesson 0)
      (step (sampleLesson 3) initialState Event.pressPlayPause)).isPlaying = false ∧
    openLesson (sampleLesson 0) (step (sampleLesson 3) initialState Event.pressPlayPause)
      = initialState := by
  refine ⟨rfl, rfl, rfl, rfl, rfl, rfl⟩

/-- The witness of C13 as the code has it: the lesson without sentences. -/
theorem openLesson_empty_is_mounted_witness :
    (sampleLesson 0).sentences = [] ∧
    openLesson (sampleLesson 0) (step (sampleLesson 3) initialState Event.pressPlayPause)
      = initialState :=
  ⟨rfl, (openLesson_empty_is_mounted (sampleLesson 0)
    (step (sampleLesson 3) initialState Event.pressPlayPause) rfl).1⟩

/-- C14, as the code has it: opening a lesson keeps no preference: whatever
the state before, after `openLesson` the loop flag is off, the speed is 1.0 and
the translation is shown, as in every freshly mounted player. -/
theorem openLesson_resets_preferences (lesson : Lesson) (prior : State) :
    (openLesson lesson prior).loopSentence = false ∧
    (openLesson lesson prior).playbackSpeed = 1.0 ∧
    (openLesson lesson prior).showTranslation = true :=
  ⟨rfl, rfl, rfl⟩

/-- The counterexample of C14 (three sentences): with loop switched on and
the speed moved from 1.0 to 1.25, opening a lesson gives loop off and speed
1.0. -/
theorem openLesson_drops_preferences :
    (run (sampleLesson 3) initialState [Event.toggleLoop, Event.cycleSpeed]).loopSentence
      = true ∧
    (run (sampleLesson 3) initialState [Event.toggleLoop, Event.cycleSpeed]).playbackSpeed
      = 1.25 ∧
    (openLesson (sampleLesson 3)
      (run (sampleLesson 3) initialState [Event.toggleLoop, Event.cycleSpeed])).loopSentence
      = false ∧
    (openLesson (sampleLesson 3)
      (run (sampleLesson 3) initialState [Event.toggleLoop, Event.cycleSpeed])).playbackSpeed
      = 1.0 ∧
    (1.0 : ℚ) ≠ 1.25 := by
  refine ⟨rfl, ?_, rfl, rfl, by norm_num⟩
  simp only [run, step, changeSpeed_eq, toggleLoop, initialState]
  norm_num

end PlayerScreen

namespace LessonsData

theorem arrayFrom_length (length first : Nat) : (arrayFrom length first).length = length := by
  simp [arrayFrom]

theorem arrayFrom_id (length first k : Nat) (l : PlayerScreen.Lesson)
    (h : (arrayFrom length first)[k]? = some l) : l.id = k + first := by
  have hk : k < length := by
    have := (List.getElem?_eq_some.mp h).1
    simpa [arrayFrom] using this
  simp only [arrayFrom, List.getElem?_map, List.getElem?_range hk, Option.map_some',
    Option.some.injEq] at h
  rw [← h]

theorem arrayFrom_sentences (length first : Nat) (l : PlayerScreen.Lesson)
    (h : l ∈ arrayFrom length first) : l.sentences.length = 2 := by
  simp only [arrayFrom, List.mem_map] at h
  obtain ⟨i, _, rfl⟩ := h
  rfl

theorem ids_append_arrayFrom (written : List PlayerScreen.Lesson) (length : Nat)
    (h : ∀ (k : Nat) (l : PlayerScreen.Lesson), written[k]? = some l → l.id = k + 1)
    (k : Nat) (l : PlayerScreen.Lesson)
    (hl : (written ++ arrayFrom length (written.length + 1))[k]? = some l) : l.id = k + 1 := by
  by_cases hk : k < written.length
  · rw [List.getElem?_append_left hk] at hl
    exact h k l hl
  · rw [List.getElem?_append_right (by omega)] at hl
    have := arrayFrom_id _ _ _ _ hl
    omega

theorem nodup_ids (ls : List PlayerScreen.Lesson)
    (h : ∀ (k : Nat) (l : PlayerScreen.Lesson), ls[k]? = some l → l.id = k + 1) :
    (ls.map fun l => l.id).Nodup := by
  rw [List.nodup_iff_getElem?_ne_getElem?]
  intro i j hij hj heq
  rw [List.length_map] at hj
  have hi : i < ls.length := by omega
  rw [List.getElem?_map, List.getElem?_map, List.getElem?_eq_getElem hi,
    List.getElem?_eq_getElem hj] at heq
  simp only [Option.map_some', Option.some.injEq] at heq
  have h1 := h i _ (List.getElem?_eq_getElem hi)
  have h2 := h j _ (List.getElem?_eq_getElem hj)
  omega

theorem progressRatio_isSome (l : PlayerScreen.Lesson) (s : PlayerScreen.State)
    (h : 1 ≤ l.sentences.length) : (PlayerScreen.progressRatio l s).isSome = true := by
  have h0 : l.sentences.length ≠ 0 := by omega
  simp [PlayerScreen.progressRatio, h0]

theorem book_consistent (written : List PlayerScreen.Lesson) (length : Nat)
    (hid : ∀ (k : Nat) (l : PlayerScreen.Lesson), written[k]? = some l → l.id = k + 1)
    (hs : ∀ l ∈ written, 1 ≤ l.sentences.length) :
    (written ++ arrayFrom length (written.length + 1)).length = written.length + length ∧
    (∀ (k : Nat) (l : PlayerScreen.Lesson),
      (written ++ arrayFrom length (written.length + 1))[k]? = some l → l.id = k + 1) ∧
    ((written ++ arrayFrom length (written.length + 1)).map fun l => l.id).Nodup ∧
    (∀ l ∈ written ++ arrayFrom length (written.length + 1),
      1 ≤ l.sentences.length ∧
      ∀ s : PlayerScreen.State, (PlayerScreen.progressRatio l s).isSome = true) := by
  have hids := ids_append_arrayFrom written length hid
  have hlen : ∀ l ∈ written ++ arrayFrom length (written.length + 1),
      1 ≤ l.sentences.length := by
    intro l hl
    rcases List.mem_append.mp hl with h | h
    · exact hs l h
    · rw [arrayFrom_sentences _ _ l h]
      omega
  refine ⟨?_, hids, nodup_ids _ hids, ?_⟩
  · rw [List.length_append, arrayFrom_length]
  · intro l hl
    exact ⟨hlen l hl, fun s => progressRatio_isSome l s (hlen l hl)⟩

theorem book1_written :
    (∀ (k : Nat) (l : PlayerScreen.Lesson), (book1.take 3)[k]? = some l → l.id = k + 1) ∧
    (∀ l ∈ book1.take 3, 1 ≤ l.sentences.length) := by
  refine ⟨?_, ?_⟩
  · intro k l h
    match k, h with
    | 0, h => simp [book1] at h; rw [← h]
    | 1, h => simp [book1] at h; rw [← h]
    | 2, h => simp [book1] at h; rw [← h]
    | k + 3, h => simp [book1] at h
  · intro l h
    simp [book1] at h
    rcases h with h | h | h <;> rw [h] <;> decide

theorem book2_written :
    (∀ (k : Nat) (l : PlayerScreen.Lesson), (book2.take 1)[k]? = some l → l.id = k + 1) ∧
    (∀ l ∈ book2.take 1, 1 ≤ l.sentences.length) := by
  refine ⟨?_, ?_⟩
  · intro k l h
    match k, h with
    | 0, h => simp [book2] at h; rw [← h]
    | k + 1, h => simp [book2] at h
  · intro l h
    simp [book2] at h
    rw [h]
    decide

theorem book3_written :
    (∀ (k : Nat) (l : PlayerScreen.Lesson), (book3.take 1)[k]? = some l → l.id = k + 1) ∧
    (∀ l ∈ book3.take 1, 1 ≤ l.sentences.length) := by
  refine ⟨?_, ?_⟩
  · intro k l h
    match k, h with
    | 0, h => simp [book3] at h; rw [← h]
    | k + 1, h => simp [book3] at h
  · intro l h
    simp [book3] at h
    rw [h]
    decide

theorem book4_written :
    (∀ (k : Nat) (l : PlayerScreen.Lesson), (book4.take 1)[k]? = some l → l.id = k + 1) ∧
    (∀ l ∈ book4.take 1, 1 ≤ l.sentences.length) := by
  refine ⟨?_, ?_⟩
  · intro k l h
    match k, h with
    | 0, h => simp [book4] at h; rw [← h]
    | k + 1, h => simp [book4] at h
  · intro l h
    simp [book4] at h
    rw [h]
    decide

theorem catalog_book (ls : List PlayerScreen.Lesson) (written length count : Nat)
    (hsplit : ls = ls.take written ++ arrayFrom length ((ls.take written).length + 1))
    (hcount : (ls.take written).length + length = count)
    (hw : (∀ (k : Nat) (l : PlayerScreen.Lesson),
        (ls.take written)[k]? = some l → l.id = k + 1) ∧
      (∀ l ∈ ls.take written, 1 ≤ l.sentences.length)) :
    ls.length = count ∧
    (∀ (k : Nat) (l : PlayerScreen.Lesson), ls[k]? = some l → l.id = k + 1) ∧
    (ls.map fun l => l.id).Nodup ∧
    (∀ l ∈ ls, 1 ≤ l.sentences.length ∧
      ∀ s : PlayerScreen.State, (PlayerScreen.progressRatio l s).isSome = true) := by
  have h := book_consistent (ls.take written) length hw.1 hw.2
  rw [← hsplit, hcount] at h
  exact h

/-- C17: the lesson counts of `booksInfo` are 144, 96, 60 and 48, and for
every entry `b` of `booksInfo` the list `lessonsData[b.id]` exists, has
`b.lessons` lessons, has the lesson with id `k + 1` at position `k` (so no id
occurs twice), and has at least one sentence in every lesson, so that the
divisor of the progress ratio is never 0. -/
theorem catalog_consistent (b : BookInfo) (hb : b ∈ booksInfo) :
    booksInfo.map (fun info => info.lessons) = [144, 96, 60, 48] ∧
    ∃ ls : List PlayerScreen.Lesson,
      lessonsDataAt b.id = some ls ∧
      ls.length = b.lessons ∧
      (∀ (k : Nat) (l : PlayerScreen.Lesson), ls[k]? = some l → l.id = k + 1) ∧
      (ls.map fun l => l.id).Nodup ∧
      (∀ l ∈ ls, 1 ≤ l.sentences.length ∧
        ∀ s : PlayerScreen.State, (PlayerScreen.progressRatio l s).isSome = true) := by
  refine ⟨rfl, ?_⟩
  simp only [booksInfo, List.mem_cons, List.mem_singleton, List.not_mem_nil, or_false] at hb
  rcases hb with hb | hb | hb | hb <;> subst hb
  · exact ⟨book1, by simp [lessonsDataAt, lessonsData], catalog_book book1 3 141 144 rfl rfl book1_written⟩
  · exact ⟨book2, by simp [lessonsDataAt, lessonsData], catalog_book book2 1 95 96 rfl rfl book2_written⟩
  · exact ⟨book3, by simp [lessonsDataAt, lessonsData], catalog_book book3 1 59 60 rfl rfl book3_written⟩
  · exact ⟨book4, by simp [lessonsDataAt, lessonsData], catalog_book book4 1 47 48 rfl rfl book4_written⟩

/-- The witness of C17: the first entry of `booksInfo`, for `book1`. -/
theorem catalog_consistent_witness :
    booksInfo.head? = some ⟨"book1", "新概念英语第一册", "First Things First", "英语初阶", 144⟩ ∧
    ∃ ls : List PlayerScreen.Lesson,
      lessonsDataAt "book1" = some ls ∧ ls.length = 144 ∧
      (∀ (k : Nat) (l : PlayerScreen.Lesson), ls[k]? = some l → l.id = k + 1) :=
  have h := catalog_consistent
    ⟨"book1", "新概念英语第一册", "First Things First", "英语初阶", 144⟩
    (List.mem_cons_self _ _)
  ⟨rfl, h.2.imp fun _ hl => ⟨hl.1, hl.2.1, hl.2.2.1⟩⟩

end LessonsData

namespace ProfileScreen

/-- C15: `handleLogin` with a non-empty user name and a non-empty password
sets the logged-in flag and stores the profile made from the user name (the
email is the user name followed by `@example.com`, the phone, the study days
and the lessons are fixed), and with an empty one of the two it changes
nothing; so from a logged-out state the login succeeds exactly when both are
non-empty.  The confirmed logout gives the initial state. -/
theorem mock_login_logout (s : State) :
    (s.username ≠ "" ∧ s.password ≠ "" →
      handleLogin s =
        { s with
          isLoggedIn := true
          userInfo :=
            { name := s.username
              email := s.username ++ "@example.com"
              phone := "138****8888"
              studyDays := 15
              totalLessons := 45 } }) ∧
    (s.username = "" ∨ s.password = "" → handleLogin s = s) ∧
    (s.isLoggedIn = false →
      ((handleLogin s).isLoggedIn = true ↔ (s.username ≠ "" ∧ s.password ≠ ""))) ∧
    handleLogout true s = initialState := by
  refine ⟨?_, ?_, ?_, rfl⟩
  · intro h
    have hn : ¬ (s.username = "" ∨ s.password = "") := by
      intro hor
      rcases hor with h1 | h1
      · exact h.1 h1
      · exact h.2 h1
    simp only [handleLogin, if_neg hn, if_pos h]
  · intro h
    simp only [handleLogin, if_pos h]
  · intro hout
    by_cases h : s.username = "" ∨ s.password = ""
    · simp only [handleLogin, if_pos h, hout]
      constructor
      · intro hf
        exact absurd hf (by decide)
      · intro hne
        rcases h with h1 | h1
        · exact absurd h1 hne.1
        · exact absurd h1 hne.2
    · have hne : s.username ≠ "" ∧ s.password ≠ "" :=
        ⟨fun h1 => h (Or.inl h1), fun h1 => h (Or.inr h1)⟩
      simp only [handleLogin, if_neg h, if_pos hne]
      exact ⟨fun _ => hne, fun _ => trivial⟩

/-- The witness of C15: user name `alice`, password `secret`. -/
theorem mock_login_logout_witness :
    (handleLogin (setPassword "secret" (setUsername "alice" initialState))).userInfo
      = ⟨"alice", "alice@example.com", "138****8888", 15, 45⟩ ∧
    (handleLogin (setPassword "secret" (setUsername "alice" initialState))).isLoggedIn
      = true ∧
    handleLogin (setPassword "secret" initialState) = setPassword "secret" initialState ∧
    handleLogout true (handleLogin (setPassword "secret" (setUsername "alice" initialState)))
      = initialState :=
  have h := mock_login_logout (setPassword "secret" (setUsername "alice" initialState))
  have h0 := mock_login_logout (setPassword "secret" initialState)
  ⟨by rw [h.1 ⟨by decide, by decide⟩]; decide,
   by rw [h.1 ⟨by decide, by decide⟩],
   h0.2.1 (Or.inl rfl),
   h.2.2.2⟩

end ProfileScreen
